import Mathlib

/-!
# Verification of the TODO-Bot persistence core (`todo_manager.py`)

Shallow embedding of the entity model (`TodoItem`, `TodoList`), the
serialization codec (`to_dict` / `from_dict`), and the `TodoManager`
façade (indexing, naming policy, rate-limited persistence).

Conventions of the embedding:
* `datetime.now().isoformat()` timestamps are opaque strings passed in
  as explicit `now` arguments.
* `time.time()` values (used only by the save rate limiter) are `Int`
  arguments.
* Fresh `uuid` identifiers are passed in as explicit `fresh` arguments.
* The Python `dict` that backs the manager index is an insertion-ordered
  association list; `dict[k] = v` replaces the first entry with key `k`
  in place or appends a new entry, `del dict[k]` removes that entry.
* A method that mutates `self` becomes a function returning the updated
  value; methods that read state return it unchanged in the second
  component so that frame properties are statable.
* A successful backend write (`_save_to_database` / `_save_to_json`
  success path) is recorded as a `SaveEvent` carrying the snapshot that
  was persisted; the module-level `USE_DATABASE` flag is a manager field.
-/

/-- Source `TodoItem`: a single todo item with completion tracking
(`todo_manager.py` lines 27-82). -/
structure TodoItem where
  content : String
  created_by : String
  completed : Bool
  completed_by : Option String
  completed_at : Option String
  created_at : String
  item_id : String
deriving Repr, DecidableEq

/-- Source `TodoList`: a todo list containing multiple items
(`todo_manager.py` lines 85-217). -/
structure TodoList where
  name : String
  created_by : String
  guild_id : String
  items : List TodoItem
  created_at : String
  list_id : String
deriving Repr, DecidableEq

/-- One persisted write, tagged by the backend that performed it. -/
inductive SaveEvent where
  | db (lists : List (String × TodoList)) : SaveEvent
  | json (lists : List (String × TodoList)) : SaveEvent
deriving Repr, DecidableEq

/-- Python `given or fresh` on an optional id: `None` and the empty
string are falsy, any other string is kept. -/
def orFresh (given : Option String) (fresh : String) : String :=
  match given with
  | some s => if s = "" then fresh else s
  | none => fresh

/-- Source `TodoItem.__init__` (lines 30-44): fresh items start uncompleted with
both completion fields absent. -/
def TodoItem.init (content created_by : String) (item_id : Option String)
    (now fresh : String) : TodoItem :=
  { content := content
    created_by := created_by
    completed := false
    completed_by := none
    completed_at := none
    created_at := now
    item_id := orFresh item_id fresh }

/-- The per-item toggle performed inside `TodoList.toggle_item`
(lines 145-151): flip `completed`; stamp actor and time on the
transition to `true`, clear both on the transition to `false`. -/
def TodoItem.toggleCompletion (item : TodoItem) (user_id now : String) : TodoItem :=
  let c := !item.completed
  if c then
    { item with completed := c, completed_by := some user_id, completed_at := some now }
  else
    { item with completed := c, completed_by := none, completed_at := none }

/-- The `for` loop of `TodoList.remove_item` (lines 127-131): delete the
first item whose id matches, report whether one was found. -/
def removeFirstItem (item_id : String) : List TodoItem → Bool × List TodoItem
  | [] => (false, [])
  | it :: rest =>
    if it.item_id == item_id then (true, rest)
    else
      let r := removeFirstItem item_id rest
      (r.1, it :: r.2)

/-- The `for` loop of `TodoList.toggle_item` (lines 143-153): toggle the
first item whose id matches, report whether one was found. -/
def toggleFirstItem (item_id user_id now : String) : List TodoItem → Bool × List TodoItem
  | [] => (false, [])
  | it :: rest =>
    if it.item_id == item_id then (true, it.toggleCompletion user_id now :: rest)
    else
      let r := toggleFirstItem item_id user_id now rest
      (r.1, it :: r.2)

/-- Source `TodoList.__init__` (lines 88-102). -/
def TodoList.init (name created_by guild_id : String) (list_id : Option String)
    (now fresh : String) : TodoList :=
  { name := name
    created_by := created_by
    guild_id := guild_id
    items := []
    created_at := now
    list_id := orFresh list_id fresh }

/-- Source `TodoList.add_item` (lines 104-116): append a fresh item, return it. -/
def TodoList.add_item (l : TodoList) (content created_by : String)
    (now fresh : String) : TodoItem × TodoList :=
  let item := TodoItem.init content created_by none now fresh
  (item, { l with items := l.items ++ [item] })

/-- Source `TodoList.remove_item` (lines 118-131). -/
def TodoList.remove_item (l : TodoList) (item_id : String) : Bool × TodoList :=
  let r := removeFirstItem item_id l.items
  (r.1, { l with items := r.2 })

/-- Source `TodoList.toggle_item` (lines 133-153). -/
def TodoList.toggle_item (l : TodoList) (item_id user_id now : String) : Bool × TodoList :=
  let r := toggleFirstItem item_id user_id now l.items
  (r.1, { l with items := r.2 })

/-- Source `TodoList.get_item` (lines 155-167). -/
def TodoList.get_item (l : TodoList) (item_id : String) : Option TodoItem :=
  l.items.find? (fun it => it.item_id == item_id)

/-- Serialized form of a `TodoItem` as produced/consumed by
`to_dict`/`from_dict`.  A field is `none` when the key is absent (or its
value is `null`, which `dict.get` does not distinguish from absence). -/
structure ItemRecord where
  content : Option String := none
  created_by : Option String := none
  completed : Option Bool := none
  completed_by : Option String := none
  completed_at : Option String := none
  created_at : Option String := none
  item_id : Option String := none
deriving Repr, DecidableEq

/-- Serialized form of a `TodoList`. -/
structure ListRecord where
  name : Option String := none
  created_by : Option String := none
  guild_id : Option String := none
  items : Option (List ItemRecord) := none
  created_at : Option String := none
  list_id : Option String := none
deriving Repr, DecidableEq

/-- Source `TodoItem.to_dict` (lines 46-60). -/
def TodoItem.to_dict (it : TodoItem) : ItemRecord :=
  { content := some it.content
    created_by := some it.created_by
    completed := some it.completed
    completed_by := it.completed_by
    completed_at := it.completed_at
    created_at := some it.created_at
    item_id := some it.item_id }

/-- Source `TodoItem.from_dict` (lines 62-82): construct with `.get` defaults,
then overwrite the completion and creation fields from the record.  The
`try/except` wrapper never fires (no statement in the body raises), so
it is not modelled. -/
def TodoItem.from_dict (data : ItemRecord) (now fresh : String) : TodoItem :=
  { content := data.content.getD ""
    created_by := data.created_by.getD ""
    completed := data.completed.getD false
    completed_by := data.completed_by
    completed_at := data.completed_at
    created_at := data.created_at.getD now
    item_id := orFresh data.item_id fresh }

/-- The item-loading loop of `TodoList.from_dict` (lines 204-211), with
the fresh-id supply indexed by position. -/
def loadItemsAux (now : String) (freshI : Nat → String) :
    List ItemRecord → Nat → List TodoItem
  | [], _ => []
  | r :: rs, k => TodoItem.from_dict r now (freshI k) :: loadItemsAux now freshI rs (k + 1)

/-- Source `TodoList.from_dict` (lines 184-217).  As with items, the
`try/except` wrappers never fire and are not modelled. -/
def TodoList.from_dict (data : ListRecord) (now fresh : String)
    (freshI : Nat → String) : TodoList :=
  { name := data.name.getD "Unknown List"
    created_by := data.created_by.getD "unknown"
    guild_id := data.guild_id.getD "unknown"
    items := loadItemsAux now freshI (data.items.getD []) 0
    created_at := data.created_at.getD now
    list_id := orFresh data.list_id fresh }

/-- Source `TodoList.to_dict` (lines 169-182). -/
def TodoList.to_dict (l : TodoList) : ListRecord :=
  { name := some l.name
    created_by := some l.created_by
    guild_id := some l.guild_id
    items := some (l.items.map TodoItem.to_dict)
    created_at := some l.created_at
    list_id := some l.list_id }

/-- Source `dict.get` on the manager index: the value of the first entry whose
key matches. -/
def dictGet (xs : List (String × TodoList)) (k : String) : Option TodoList :=
  (xs.find? (fun p => p.1 == k)).map (fun p => p.2)

/-- Source `dict[k] = v`: replace the first entry with key `k` in place, or
append a new entry. -/
def dictInsert (k : String) (v : TodoList) : List (String × TodoList) → List (String × TodoList)
  | [] => [(k, v)]
  | (k', v') :: rest => if k' == k then (k, v) :: rest else (k', v') :: dictInsert k v rest

/-- Source `del dict[k]`: drop the first entry with key `k`. -/
def dictErase (k : String) : List (String × TodoList) → List (String × TodoList)
  | [] => []
  | (k', v') :: rest => if k' == k then rest else (k', v') :: dictErase k rest

/-- Source `TodoManager` state (lines 220-244): the in-memory index, the save
rate limiter, the module-level `USE_DATABASE` flag, and the log of
writes performed so far by the backends. -/
structure TodoManager where
  todo_lists : List (String × TodoList)
  last_save : Int
  save_interval : Int
  use_database : Bool
  events : List SaveEvent
deriving Repr, DecidableEq

/-- Source `TodoManager.__init__` (lines 223-244) after the startup load: the
index holds the loaded lists, `_save_interval = 5`, `_last_save = 0`. -/
def TodoManager.start (loaded : List (String × TodoList)) (useDb : Bool) : TodoManager :=
  { todo_lists := loaded
    last_save := 0
    save_interval := 5
    use_database := useDb
    events := [] }

/-- Success path of `_save_to_database` (lines 634-679): full-replace
write of the current snapshot to the relational backend. -/
def TodoManager.save_to_database (m : TodoManager) : TodoManager :=
  { m with events := m.events ++ [SaveEvent.db m.todo_lists] }

/-- Success path of `_save_to_json` (lines 681-709): atomic write of the
current snapshot to the JSON backend. -/
def TodoManager.save_to_json (m : TodoManager) : TodoManager :=
  { m with events := m.events ++ [SaveEvent.json m.todo_lists] }

/-- Source `TodoManager.save_lists` (lines 277-288): skip entirely when less
than `_save_interval` has elapsed since `_last_save`; otherwise dispatch
on `USE_DATABASE` and then set `_last_save` to the current time. -/
def TodoManager.save_lists (m : TodoManager) (now : Int) : TodoManager :=
  if now - m.last_save < m.save_interval then m
  else
    { (if m.use_database then m.save_to_database else m.save_to_json) with last_save := now }

/-- Source `TodoManager.force_save` (lines 290-295): dispatch unconditionally;
`_last_save` is not touched. -/
def TodoManager.force_save (m : TodoManager) : TodoManager :=
  if m.use_database then m.save_to_database else m.save_to_json

/-- Source `TodoManager.get_list` (lines 324-333). -/
def TodoManager.get_list (m : TodoManager) (list_id : String) :
    Option TodoList × TodoManager :=
  (dictGet m.todo_lists list_id, m)

/-- Source `TodoManager.get_list_by_name` (lines 335-348): first value of the
index matching name and guild exactly. -/
def TodoManager.get_list_by_name (m : TodoManager) (name guild_id : String) :
    Option TodoList × TodoManager :=
  ((m.todo_lists.map (fun p => p.2)).find?
      (fun l => l.name == name && l.guild_id == guild_id), m)

/-- Source `TodoManager.get_lists_by_name` (lines 350-363). -/
def TodoManager.get_lists_by_name (m : TodoManager) (name guild_id : String) :
    List TodoList × TodoManager :=
  ((m.todo_lists.map (fun p => p.2)).filter
      (fun l => l.name == name && l.guild_id == guild_id), m)

/-- Source `TodoManager.list_exists` (lines 365-375). -/
def TodoManager.list_exists (m : TodoManager) (name guild_id : String) :
    Bool × TodoManager :=
  ((m.get_list_by_name name guild_id).1.isSome, m)

/-- Source `TodoManager.get_all_lists` (lines 392-404): the index values of the
given guild, in insertion order. -/
def TodoManager.get_all_lists (m : TodoManager) (guild_id : String) :
    List TodoList × TodoManager :=
  ((m.todo_lists.map (fun p => p.2)).filter (fun l => l.guild_id == guild_id), m)

/-- The candidate name `f"{name} ({i})"` tried by `create_list`. -/
def suffixName (name : String) (i : Nat) : String :=
  name ++ " (" ++ Nat.repr i ++ ")"

/-- The `while self.list_exists(new_name, guild_id)` loop of
`create_list` (lines 311-315), tries `name (i)`, `name (i+1)`, … .  The
Python loop runs unboundedly; `fuel` is an upper bound on the number of
iterations, proven sufficient below (`exists_free_suffixName`). -/
def findFreeNameAux (m : TodoManager) (name guild_id : String) :
    Nat → Nat → String
  | 0, i => suffixName name i
  | fuel + 1, i =>
    if (m.list_exists (suffixName name i) guild_id).1 then
      findFreeNameAux m name guild_id fuel (i + 1)
    else suffixName name i

/-- The rename computed by `create_list` when `(name, guild_id)` already
exists: the first unused `name (i)` starting from `i = 1`.  The index
holds `m.todo_lists.length` names, so `length + 1` iterations always
reach a free candidate. -/
def findFreeName (m : TodoManager) (name guild_id : String) : String :=
  findFreeNameAux m name guild_id (m.todo_lists.length + 1) 1

/-- Source `TodoManager.create_list` (lines 297-322). -/
def TodoManager.create_list (m : TodoManager) (name created_by guild_id : String)
    (nowS fresh : String) (nowT : Int) : TodoList × TodoManager :=
  let name' := if (m.list_exists name guild_id).1 then findFreeName m name guild_id else name
  let todo_list := TodoList.init name' created_by guild_id none nowS fresh
  let m' := { m with todo_lists := dictInsert todo_list.list_id todo_list m.todo_lists }
  (todo_list, m'.save_lists nowT)

/-- Source `TodoManager.delete_list` (lines 377-390). -/
def TodoManager.delete_list (m : TodoManager) (list_id : String) (nowT : Int) :
    Bool × TodoManager :=
  if (dictGet m.todo_lists list_id).isSome then
    let m' := { m with todo_lists := dictErase list_id m.todo_lists }
    (true, m'.save_lists nowT)
  else (false, m)

/-- Source `TodoManager.add_item_to_list` (lines 406-422). -/
def TodoManager.add_item_to_list (m : TodoManager) (list_id content created_by : String)
    (nowS fresh : String) (nowT : Int) : Option TodoItem × TodoManager :=
  match dictGet m.todo_lists list_id with
  | none => (none, m)
  | some l =>
    let r := l.add_item content created_by nowS fresh
    let m' := { m with todo_lists := dictInsert list_id r.2 m.todo_lists }
    (some r.1, m'.save_lists nowT)

/-- Source `TodoManager.remove_item_from_list` (lines 424-440): the list object
is mutated in place (the index entry is updated), but `save_lists` runs
only on success. -/
def TodoManager.remove_item_from_list (m : TodoManager) (list_id item_id : String)
    (nowT : Int) : Bool × TodoManager :=
  match dictGet m.todo_lists list_id with
  | none => (false, m)
  | some l =>
    let r := l.remove_item item_id
    let m' := { m with todo_lists := dictInsert list_id r.2 m.todo_lists }
    if r.1 then (true, m'.save_lists nowT) else (false, m')

/-- Source `TodoManager.toggle_item_in_list` (lines 442-459). -/
def TodoManager.toggle_item_in_list (m : TodoManager) (list_id item_id user_id : String)
    (nowS : String) (nowT : Int) : Bool × TodoManager :=
  match dictGet m.todo_lists list_id with
  | none => (false, m)
  | some l =>
    let r := l.toggle_item item_id user_id nowS
    let m' := { m with todo_lists := dictInsert list_id r.2 m.todo_lists }
    if r.1 then (true, m'.save_lists nowT) else (false, m')

/-- Source `_save_to_database` with a persistently failing database, together
with the `save_lists` that the `except` handler (line 679) re-enters.
`fuel` bounds the recursion depth (Python eventually aborts with
`RecursionError`); exhausted fuel returns the state unchanged. -/
def TodoManager.save_lists_dbFail (m : TodoManager) (now : Int) : Nat → TodoManager
  | 0 => m
  | fuel + 1 =>
    if now - m.last_save < m.save_interval then m
    else if m.use_database then
      { m.save_lists_dbFail now fuel with last_save := now }
    else
      { m.save_to_json with last_save := now }

/-- Source `force_save` with a persistently failing database: the database
branch runs the failing `_save_to_database`, whose handler re-enters
`save_lists`. -/
def TodoManager.force_save_dbFail (m : TodoManager) (now : Int) (fuel : Nat) : TodoManager :=
  if m.use_database then m.save_lists_dbFail now fuel else m.save_to_json


/-! ## Shared concrete fixtures for witnesses -/

/-- A concrete item used by witnesses. -/
def itemW : TodoItem := TodoItem.init "Milk" "alice" none "tc0" "item_w1"

/-- A concrete list in guild `g1` used by witnesses. -/
def listW : TodoList :=
  { name := "Groceries", created_by := "alice", guild_id := "g1",
    items := [itemW], created_at := "tc1", list_id := "list_w1" }

/-- A concrete manager holding `listW`, used by witnesses. -/
def mgrW : TodoManager := TodoManager.start [("list_w1", listW)] false

/-! ## C10: queries do not change the manager state -/

/-- C10: the query operations `get_list`, `get_list_by_name`,
`get_lists_by_name`, `list_exists` and `get_all_lists` return the
manager state unchanged: no list or item is modified, added or removed,
and no persistence event is produced. -/
theorem C10_queries_leave_state_unchanged (m : TodoManager)
    (list_id name guild_id : String) :
    (m.get_list list_id).2 = m ∧
    (m.get_list_by_name name guild_id).2 = m ∧
    (m.get_lists_by_name name guild_id).2 = m ∧
    (m.list_exists name guild_id).2 = m ∧
    (m.get_all_lists guild_id).2 = m :=
  ⟨rfl, rfl, rfl, rfl, rfl⟩

/-! ## C8: rate-limited save -/

/-- The event recorded by a successful write of the current snapshot. -/
def writeEventOf (m : TodoManager) : SaveEvent :=
  if m.use_database then SaveEvent.db m.todo_lists else SaveEvent.json m.todo_lists

/-- C8: `save_lists` is a no-op (no write, no timestamp change) when
less than `_save_interval` seconds have elapsed since `_last_save`, and
performs exactly one write and advances `_last_save` to the current time
when at least that interval has elapsed; `force_save` always writes,
regardless of the interval, and never advances `_last_save`; a manager
starts with the configured interval of 5 seconds. -/
theorem C8_rate_limited_save (m : TodoManager) (now : Int) :
    (now - m.last_save < m.save_interval → m.save_lists now = m) ∧
    (m.save_interval ≤ now - m.last_save →
      (m.save_lists now).events = m.events ++ [writeEventOf m] ∧
      (m.save_lists now).last_save = now ∧
      (m.save_lists now).todo_lists = m.todo_lists) ∧
    (m.force_save.events = m.events ++ [writeEventOf m] ∧
      m.force_save.last_save = m.last_save) ∧
    (∀ (loaded : List (String × TodoList)) (useDb : Bool),
      (TodoManager.start loaded useDb).save_interval = 5) := by
  refine ⟨fun h => ?_, fun h => ?_, ?_, fun loaded useDb => rfl⟩
  · simp [TodoManager.save_lists, h]
  · have h' : ¬ (now - m.last_save < m.save_interval) := by omega
    cases hdb : m.use_database <;>
      simp [TodoManager.save_lists, h', TodoManager.save_to_database,
        TodoManager.save_to_json, writeEventOf, hdb]
  · cases hdb : m.use_database <;>
      simp [TodoManager.force_save, TodoManager.save_to_database,
        TodoManager.save_to_json, writeEventOf, hdb]

/-- Witness for C8 at a concrete manager: a save 3 seconds after the
last one writes nothing; a save 10 seconds after writes and advances the
timestamp; `force_save` writes immediately. -/
theorem C8_witness :
    ((3 : Int) - mgrW.last_save < mgrW.save_interval ∧ mgrW.save_lists 3 = mgrW) ∧
    (mgrW.save_interval ≤ (10 : Int) - mgrW.last_save ∧
      (mgrW.save_lists 10).events = mgrW.events ++ [writeEventOf mgrW] ∧
      (mgrW.save_lists 10).last_save = 10) ∧
    mgrW.force_save.events = mgrW.events ++ [writeEventOf mgrW] :=
  ⟨⟨by decide, (C8_rate_limited_save mgrW 3).1 (by decide)⟩,
   ⟨by decide, ((C8_rate_limited_save mgrW 10).2.1 (by decide)).1,
     ((C8_rate_limited_save mgrW 10).2.1 (by decide)).2.1⟩,
   (C8_rate_limited_save mgrW 0).2.2.1.1⟩

/-! ## C9: failing relational save never reaches the JSON backend -/

/-- C9: with `USE_DATABASE = true` and a persistently failing database
save, neither the rate-limited save nor `force_save` ever records a
write by any backend: the `except` handler of `_save_to_database`
re-enters `save_lists`, which dispatches straight back to the database
branch, so the JSON backend fallback promised by the comment on line 678
(and by the spec) is never invoked and the write is lost. -/
theorem C9_db_failure_never_reaches_json (lists : List (String × TodoList))
    (ls si : Int) (ev : List SaveEvent) (fuel : Nat) (now : Int) :
    (TodoManager.save_lists_dbFail ⟨lists, ls, si, true, ev⟩ now fuel).events = ev ∧
    (TodoManager.force_save_dbFail ⟨lists, ls, si, true, ev⟩ now fuel).events = ev := by
  have key : ∀ (f : Nat),
      (TodoManager.save_lists_dbFail ⟨lists, ls, si, true, ev⟩ now f).events = ev := by
    intro f
    induction f with
    | zero => rfl
    | succ f ih =>
      by_cases h : now - ls < si
      · simp [TodoManager.save_lists_dbFail, h]
      · simp [TodoManager.save_lists_dbFail, h, ih]
  exact ⟨key fuel, by simpa [TodoManager.force_save_dbFail] using key fuel⟩

/-! ## C5: tenant (guild) isolation of queries -/

/-- C5: for distinct tenants `t ≠ t'`, a list whose tenant is `t` never
appears in `get_all_lists t'` and is never the result of
`get_list_by_name (name, t')`, even if its name matches exactly. -/
theorem C5_tenant_isolation (m : TodoManager) (t t' : String) (hne : t ≠ t') :
    (∀ L ∈ (m.get_all_lists t').1, L.guild_id ≠ t) ∧
    (∀ (name : String) (L : TodoList),
      (m.get_list_by_name name t').1 = some L → L.guild_id ≠ t) := by
  constructor
  · intro L hL
    have h := (List.mem_filter.mp hL).2
    simp only [beq_iff_eq] at h
    simpa [h] using hne.symm
  · intro name L hL
    have h := List.find?_some hL
    simp only [Bool.and_eq_true, beq_iff_eq] at h
    simpa [h.2] using hne.symm

/-- Witness for C5: the guild-`g1` list of the concrete manager is
invisible to guild `g2`. -/
theorem C5_witness :
    (∀ L ∈ (mgrW.get_all_lists "g2").1, L.guild_id ≠ "g1") ∧
    (mgrW.get_all_lists "g2").1 = [] ∧
    (mgrW.get_list_by_name "Groceries" "g2").1 = none :=
  ⟨(C5_tenant_isolation mgrW "g1" "g2" (by decide)).1, by decide, by decide⟩

/-! ## C6: failed remove/toggle leave the state unchanged -/

/-- When no item has the requested id, the removal loop reports `false`
and leaves the item sequence untouched. -/
theorem removeFirstItem_not_found (item_id : String) :
    ∀ items : List TodoItem, (∀ it ∈ items, it.item_id ≠ item_id) →
      removeFirstItem item_id items = (false, items) := by
  intro items
  induction items with
  | nil => intro _; rfl
  | cons it rest ih =>
    intro h
    have hhd : ¬ (it.item_id == item_id) = true := by
      simpa using h it (List.mem_cons_self it rest)
    simp [removeFirstItem, hhd, ih fun x hx => h x (List.mem_cons_of_mem it hx)]

/-- When no item has the requested id, the toggle loop reports `false`
and leaves the item sequence untouched. -/
theorem toggleFirstItem_not_found (item_id user_id now : String) :
    ∀ items : List TodoItem, (∀ it ∈ items, it.item_id ≠ item_id) →
      toggleFirstItem item_id user_id now items = (false, items) := by
  intro items
  induction items with
  | nil => intro _; rfl
  | cons it rest ih =>
    intro h
    have hhd : ¬ (it.item_id == item_id) = true := by
      simpa using h it (List.mem_cons_self it rest)
    simp [toggleFirstItem, hhd, ih fun x hx => h x (List.mem_cons_of_mem it hx)]

/-- Writing back the value already stored under a key is a no-op on the
index. -/
theorem dictInsert_self (k : String) (l : TodoList) :
    ∀ xs, dictGet xs k = some l → dictInsert k l xs = xs := by
  intro xs
  induction xs with
  | nil => intro h; simp [dictGet] at h
  | cons p rest ih =>
    intro h
    by_cases hk : (p.1 == k) = true
    · have hget : dictGet (p :: rest) k = some p.2 := by
        simp [dictGet, List.find?, hk]
      rw [hget] at h
      have hkeq : p.1 = k := by simpa using hk
      have hval : p.2 = l := by simpa using h
      simp [dictInsert, hk, ← hkeq, ← hval]
    · have hget : dictGet (p :: rest) k = dictGet rest k := by
        simp [dictGet, List.find?, hk]
      rw [hget] at h
      simp [dictInsert, hk, ih h]

/-- C6: calling `remove_item_from_list` or `toggle_item_in_list` with a
`list_id` absent from the index, or with a present `list_id` but an
`item_id` not contained in that list, returns `false` and leaves the
whole manager state (every list, every item, the save timestamp and the
write log) unchanged. -/
theorem C6_not_found_is_pure (m : TodoManager) (list_id item_id user_id : String)
    (nowS : String) (nowT : Int)
    (h : dictGet m.todo_lists list_id = none ∨
      ∃ l, dictGet m.todo_lists list_id = some l ∧ ∀ it ∈ l.items, it.item_id ≠ item_id) :
    m.remove_item_from_list list_id item_id nowT = (false, m) ∧
    m.toggle_item_in_list list_id item_id user_id nowS nowT = (false, m) := by
  rcases h with hnone | ⟨l, hsome, hitems⟩
  · constructor
    · simp [TodoManager.remove_item_from_list, hnone]
    · simp [TodoManager.toggle_item_in_list, hnone]
  · have hins : dictInsert list_id l m.todo_lists = m.todo_lists := dictInsert_self _ _ _ hsome
    constructor
    · have hrem : l.remove_item item_id = (false, l) := by
        simp [TodoList.remove_item, removeFirstItem_not_found item_id l.items hitems]
      simp [TodoManager.remove_item_from_list, hsome, hrem, hins]
    · have htog : l.toggle_item item_id user_id nowS = (false, l) := by
        simp [TodoList.toggle_item, toggleFirstItem_not_found item_id user_id nowS l.items hitems]
      simp [TodoManager.toggle_item_in_list, hsome, htog, hins]

/-- Witness for C6: on the concrete manager, removing from a nonexistent
list and toggling a nonexistent item of the existing list both return
`false` and leave the manager intact. -/
theorem C6_witness :
    mgrW.remove_item_from_list "no_such_list" "x" 100 = (false, mgrW) ∧
    mgrW.toggle_item_in_list "list_w1" "no_such_item" "bob" "t9" 100 = (false, mgrW) :=
  ⟨(C6_not_found_is_pure mgrW "no_such_list" "x" "u" "t" 100 (Or.inl (by decide))).1,
   (C6_not_found_is_pure mgrW "list_w1" "no_such_item" "bob" "t9" 100
      (Or.inr ⟨listW, by decide, by decide⟩)).2⟩

/-! ## C1: the completion invariant -/

/-- The spec invariant on one item: uncompleted items have both
completion fields absent, completed items have both present. -/
def itemInvariant (it : TodoItem) : Prop :=
  (it.completed = false → it.completed_by = none ∧ it.completed_at = none) ∧
  (it.completed = true → it.completed_by ≠ none ∧ it.completed_at ≠ none)

instance (it : TodoItem) : Decidable (itemInvariant it) := by
  unfold itemInvariant; infer_instance

/-- The corresponding condition on a serialized item record: its
completion fields, as read back by `from_dict`, satisfy the invariant. -/
def recordCompletionOk (r : ItemRecord) : Prop :=
  (r.completed.getD false = false → r.completed_by = none ∧ r.completed_at = none) ∧
  (r.completed.getD false = true → r.completed_by ≠ none ∧ r.completed_at ≠ none)

instance (r : ItemRecord) : Decidable (recordCompletionOk r) := by
  unfold recordCompletionOk; infer_instance

/-- C1 (amended): the completion invariant holds for every constructed
item and for the result of every toggle (whether at item level or
through `TodoList.toggle_item`), and `from_dict` produces an
invariant-satisfying item whenever the input record itself satisfies the
invariant on its completion fields; `from_dict` copies those fields
verbatim, so on records violating the condition the invariant is lost
(see the counterexample). -/
theorem C1_completion_invariant :
    (∀ (content created_by : String) (item_id : Option String) (now fresh : String),
      itemInvariant (TodoItem.init content created_by item_id now fresh)) ∧
    (∀ (it : TodoItem) (u t : String), itemInvariant (it.toggleCompletion u t)) ∧
    (∀ (l : TodoList) (item_id u t : String),
      (∀ it ∈ l.items, itemInvariant it) →
      ∀ it' ∈ (l.toggle_item item_id u t).2.items, itemInvariant it') ∧
    (∀ (r : ItemRecord) (now fresh : String),
      recordCompletionOk r → itemInvariant (TodoItem.from_dict r now fresh)) := by
  have htog : ∀ (it : TodoItem) (u t : String), itemInvariant (it.toggleCompletion u t) := by
    intro it u t
    cases hc : it.completed <;> simp [TodoItem.toggleCompletion, itemInvariant, hc]
  refine ⟨fun content created_by item_id now fresh => ?_, htog, ?_, ?_⟩
  · simp [TodoItem.init, itemInvariant]
  · intro l item_id u t hinv
    suffices hgen : ∀ items : List TodoItem, (∀ it ∈ items, itemInvariant it) →
        ∀ it' ∈ (toggleFirstItem item_id u t items).2, itemInvariant it' by
      intro it' hit'
      exact hgen l.items hinv it' (by simpa [TodoList.toggle_item] using hit')
    intro items
    induction items with
    | nil => intro _ it' hit'; simp [toggleFirstItem] at hit'
    | cons it rest ih =>
      intro hall it' hit'
      by_cases hhd : (it.item_id == item_id) = true
      · simp [toggleFirstItem, hhd] at hit'
        rcases hit' with rfl | hmem
        · exact htog it u t
        · exact hall it' (List.mem_cons_of_mem it hmem)
      · simp [toggleFirstItem, hhd] at hit'
        rcases hit' with heq | hmem
        · rw [heq]; exact hall it (List.mem_cons_self it rest)
        · exact ih (fun x hx => hall x (List.mem_cons_of_mem it hx)) it' hmem
  · intro r now fresh hok
    exact ⟨fun h => hok.1 h, fun h => hok.2 h⟩

/-- Counterexample for C1 as stated: deserializing a record that marks
the item completed but carries no `completed_by`/`completed_at` yields a
reachable `TodoItem` that violates the invariant. -/
theorem C1_counterexample :
    ¬ itemInvariant (TodoItem.from_dict { completed := some true } "t0" "i0") := by
  decide

/-- Witness for C1: a fresh item, a toggled item, and an item read from
a well-formed record all satisfy the invariant. -/
theorem C1_witness :
    itemInvariant (TodoItem.init "Milk" "alice" none "t0" "i1") ∧
    itemInvariant (TodoItem.toggleCompletion itemW "bob" "t9") ∧
    itemInvariant (TodoItem.from_dict
      { completed := some true, completed_by := some "bob", completed_at := some "t9" }
      "t0" "i2") :=
  ⟨C1_completion_invariant.1 "Milk" "alice" none "t0" "i1",
   C1_completion_invariant.2.1 itemW "bob" "t9",
   C1_completion_invariant.2.2.2 _ "t0" "i2" (by decide)⟩

/-! ## C7: deserialization defaults -/

/-- C7 (amended): `from_dict` totally deserializes any record, applying
field defaults for missing keys: for an item, empty strings for content
and creator, `false` for `completed`, absent completion fields, the
current time for the timestamp and a fresh id; for a list, the name
`"Unknown List"`, `"unknown"` for creator and tenant, the current time
and a fresh id. -/
theorem C7_from_dict_defaults (r : ItemRecord) (d : ListRecord)
    (now fresh : String) (freshI : Nat → String) :
    (r.content = none → (TodoItem.from_dict r now fresh).content = "") ∧
    (r.created_by = none → (TodoItem.from_dict r now fresh).created_by = "") ∧
    (r.completed = none → (TodoItem.from_dict r now fresh).completed = false) ∧
    (r.completed_by = none → (TodoItem.from_dict r now fresh).completed_by = none) ∧
    (r.completed_at = none → (TodoItem.from_dict r now fresh).completed_at = none) ∧
    (r.created_at = none → (TodoItem.from_dict r now fresh).created_at = now) ∧
    (r.item_id = none → (TodoItem.from_dict r now fresh).item_id = fresh) ∧
    (d.name = none → (TodoList.from_dict d now fresh freshI).name = "Unknown List") ∧
    (d.created_by = none → (TodoList.from_dict d now fresh freshI).created_by = "unknown") ∧
    (d.guild_id = none → (TodoList.from_dict d now fresh freshI).guild_id = "unknown") ∧
    (d.items = none → (TodoList.from_dict d now fresh freshI).items = []) ∧
    (d.created_at = none → (TodoList.from_dict d now fresh freshI).created_at = now) ∧
    (d.list_id = none → (TodoList.from_dict d now fresh freshI).list_id = fresh) := by
  refine ⟨fun h => ?_, fun h => ?_, fun h => ?_, fun h => ?_, fun h => ?_, fun h => ?_,
    fun h => ?_, fun h => ?_, fun h => ?_, fun h => ?_, fun h => ?_, fun h => ?_, fun h => ?_⟩ <;>
    simp [TodoItem.from_dict, TodoList.from_dict, orFresh, h, loadItemsAux]

/-- Counterexample for C7 as stated: the defaults the claim describes
are not the ones the code applies.  A missing item `created_by`
defaults to the empty string, not `"unknown"`, and a missing list name
defaults to `"Unknown List"`, not the empty string. -/
theorem C7_counterexample :
    (TodoItem.from_dict {} "t0" "i0").created_by ≠ "unknown" ∧
    (TodoList.from_dict {} "t0" "l0" (fun _ => "i")).name ≠ "" := by
  decide

/-- Witness for C7: applying the defaults theorem to the empty records. -/
theorem C7_witness :
    (TodoItem.from_dict {} "t0" "i0").created_by = "" ∧
    (TodoList.from_dict {} "t0" "l0" (fun _ => "i")).name = "Unknown List" :=
  ⟨(C7_from_dict_defaults {} {} "t0" "i0" (fun _ => "i")).2.1 rfl,
   (C7_from_dict_defaults {} {} "t0" "l0" (fun _ => "i")).2.2.2.2.2.2.2.1 rfl⟩

/-! ## C2: toggle parity -/

/-- Iterated toggling of one item by one actor, at the given sequence of
toggle times. -/
def toggleMany (it : TodoItem) (u : String) : List String → TodoItem
  | [] => it
  | t :: ts => toggleMany (it.toggleCompletion u t) u ts

/-- Toggling an uncompleted item marks it completed by the actor at the
given time. -/
theorem toggleCompletion_of_not_completed (it : TodoItem) (u t : String)
    (h : it.completed = false) :
    it.toggleCompletion u t =
      { it with completed := true, completed_by := some u, completed_at := some t } := by
  simp [TodoItem.toggleCompletion, h]

/-- From the base state (uncompleted, both completion fields absent),
two successive toggles restore the item exactly. -/
theorem toggleCompletion_twice (it : TodoItem) (u t₁ t₂ : String)
    (h1 : it.completed = false) (h2 : it.completed_by = none)
    (h3 : it.completed_at = none) :
    (it.toggleCompletion u t₁).toggleCompletion u t₂ = it := by
  cases it
  simp_all [TodoItem.toggleCompletion]

/-- Even-length toggle sequences are the identity on base-state items. -/
theorem toggleMany_even (it : TodoItem) (u : String)
    (h1 : it.completed = false) (h2 : it.completed_by = none)
    (h3 : it.completed_at = none) :
    ∀ (n : Nat) (ts : List String), ts.length ≤ n → ts.length % 2 = 0 →
      toggleMany it u ts = it := by
  intro n
  induction n with
  | zero =>
    intro ts hle _
    have : ts = [] := List.eq_nil_of_length_eq_zero (Nat.le_zero.mp hle)
    rw [this]; rfl
  | succ n ih =>
    intro ts hle hpar
    match ts with
    | [] => rfl
    | [t] => simp at hpar
    | t₁ :: t₂ :: ts' =>
      have step : toggleMany it u (t₁ :: t₂ :: ts') = toggleMany it u ts' := by
        show toggleMany ((it.toggleCompletion u t₁).toggleCompletion u t₂) u ts' = _
        rw [toggleCompletion_twice it u t₁ t₂ h1 h2 h3]
      rw [step]
      refine ih ts' ?_ ?_
      · simp only [List.length_cons] at hle; omega
      · simp only [List.length_cons] at hpar ⊢; omega

/-- Appending one more toggle time composes with one more toggle. -/
theorem toggleMany_append (u : String) (t : String) :
    ∀ (ts : List String) (it : TodoItem),
      toggleMany it u (ts ++ [t]) = (toggleMany it u ts).toggleCompletion u t := by
  intro ts
  induction ts with
  | nil => intro it; rfl
  | cons t' ts ih => intro it; simp [toggleMany, ih]

/-- C2 (amended): starting from the base state (uncompleted with both
completion fields absent — the state guaranteed by the C1 invariant for
uncompleted items), toggling an even number of times restores the
original `(completed, completed_by, completed_at)` triple, while an odd
number of toggles marks the item completed by the acting user with
`completed_at` the time of the last toggle.  For items that start
completed the even case fails (the original completer and time are not
restored): see the counterexample. -/
theorem C2_toggle_parity (it : TodoItem) (u : String) (ts : List String)
    (h1 : it.completed = false) (h2 : it.completed_by = none)
    (h3 : it.completed_at = none) :
    (ts.length % 2 = 0 → toggleMany it u ts = it) ∧
    (ts.length % 2 = 1 → toggleMany it u ts =
      { it with completed := true, completed_by := some u,
                completed_at := ts.getLast? }) := by
  constructor
  · intro hpar
    exact toggleMany_even it u h1 h2 h3 ts.length ts le_rfl hpar
  · intro hpar
    rcases List.eq_nil_or_concat ts with rfl | ⟨ts', t, rfl⟩
    · simp at hpar
    · rw [List.concat_eq_append] at hpar ⊢
      have hev : ts'.length % 2 = 0 := by
        simp only [List.length_append, List.length_cons, List.length_nil] at hpar
        omega
      rw [toggleMany_append u t ts' it,
        toggleMany_even it u h1 h2 h3 ts'.length ts' le_rfl hev,
        toggleCompletion_of_not_completed it u t h1, List.getLast?_concat]

/-- Counterexample for C2 as stated: for an item that is already
completed, a single (odd) toggle clears `completed_by` instead of
setting it to the acting user. -/
theorem C2_counterexample :
    (toggleMany ⟨"c", "u0", true, some "x", some "t0", "tc", "i"⟩ "a" ["t1"]).completed_by
      ≠ some "a" := by
  decide

/-- Witness for C2: a fresh (base-state) concrete item toggled twice is
restored, and toggled three times is completed by the actor at the last
toggle time. -/
theorem C2_witness :
    toggleMany itemW "bob" ["t1", "t2"] = itemW ∧
    toggleMany itemW "bob" ["t1", "t2", "t3"] =
      { itemW with completed := true, completed_by := some "bob",
                   completed_at := (["t1", "t2", "t3"] : List String).getLast? } :=
  ⟨(C2_toggle_parity itemW "bob" ["t1", "t2"] rfl rfl rfl).1 rfl,
   (C2_toggle_parity itemW "bob" ["t1", "t2", "t3"] rfl rfl rfl).2 rfl⟩

/-! ## C3: serialization round-trip -/

/-- The content-and-completion projection of an item that the round-trip
law talks about. -/
def itemCore (it : TodoItem) : String × Bool × Option String × Option String :=
  (it.content, it.completed, it.completed_by, it.completed_at)

/-- Reloading serialized items preserves content and completion state,
item for item and in order, whatever fresh-id supply is used. -/
theorem loadItemsAux_map_itemCore (now : String) (freshI : Nat → String) :
    ∀ (items : List TodoItem) (k : Nat),
      (loadItemsAux now freshI (items.map TodoItem.to_dict) k).map itemCore
        = items.map itemCore := by
  intro items
  induction items with
  | nil => intro k; rfl
  | cons it rest ih =>
    intro k
    simp only [List.map_cons, loadItemsAux, ih (k + 1)]
    simp [itemCore, TodoItem.from_dict, TodoItem.to_dict]

/-- C3: `from_dict (to_dict L)` reproduces the name, creator, tenant and
id of `L`, and its item sequence agrees with that of `L` item for item
in content and completion state, in the same order.  (The hypothesis
`L.list_id ≠ ""` reflects that every `TodoList` the program constructs
carries a nonempty id: `__init__` replaces a falsy id with a fresh
`list_...` one.) -/
theorem C3_roundtrip (L : TodoList) (now fresh : String) (freshI : Nat → String)
    (h : L.list_id ≠ "") :
    (TodoList.from_dict L.to_dict now fresh freshI).name = L.name ∧
    (TodoList.from_dict L.to_dict now fresh freshI).created_by = L.created_by ∧
    (TodoList.from_dict L.to_dict now fresh freshI).guild_id = L.guild_id ∧
    (TodoList.from_dict L.to_dict now fresh freshI).list_id = L.list_id ∧
    (TodoList.from_dict L.to_dict now fresh freshI).items.map itemCore
      = L.items.map itemCore := by
  refine ⟨rfl, rfl, rfl, ?_, ?_⟩
  · simp [TodoList.from_dict, TodoList.to_dict, orFresh, h]
  · simp only [TodoList.from_dict, TodoList.to_dict, Option.getD_some]
    exact loadItemsAux_map_itemCore now freshI L.items 0

/-- Witness for C3 on the concrete list. -/
theorem C3_witness :
    listW.list_id ≠ "" ∧
    (TodoList.from_dict listW.to_dict "zz" "fl" (fun _ => "fi")).name = listW.name ∧
    (TodoList.from_dict listW.to_dict "zz" "fl" (fun _ => "fi")).list_id = listW.list_id ∧
    (TodoList.from_dict listW.to_dict "zz" "fl" (fun _ => "fi")).items.map itemCore
      = listW.items.map itemCore :=
  ⟨by decide,
   (C3_roundtrip listW "zz" "fl" (fun _ => "fi") (by decide)).1,
   (C3_roundtrip listW "zz" "fl" (fun _ => "fi") (by decide)).2.2.2.1,
   by decide⟩

/-! ## C4: auto-rename via the lowest unused suffix

The candidate names are `f"{name} ({i})"`, rendered with the decimal
representation of `i`.  To show the `while` loop always terminates on a
free candidate we need that distinct `i` render distinct candidates,
hence an injectivity proof for `Nat.repr`. -/

/-- Value of one decimal digit character. -/
def digitVal (c : Char) : Nat := c.toNat - 48

/-- Value of a most-significant-first digit character string. -/
def digitsVal (l : List Char) : Nat := l.foldl (fun a c => 10 * a + digitVal c) 0

/-- Unfolding of one step of the fuelled digit printer. -/
theorem toDigitsCore_succ (f n : Nat) (ds : List Char) :
    Nat.toDigitsCore 10 (f + 1) n ds =
      if n / 10 = 0 then Nat.digitChar (n % 10) :: ds
      else Nat.toDigitsCore 10 f (n / 10) (Nat.digitChar (n % 10) :: ds) := by
  rfl

/-- With sufficient fuel, the accumulator is simply appended after the
digits of `n`. -/
theorem toDigitsCore_eq_append :
    ∀ (n f : Nat) (ds : List Char), 0 < f → n < 10 ^ f →
      Nat.toDigitsCore 10 f n ds = Nat.toDigits 10 n ++ ds := by
  intro n
  induction n using Nat.strong_induction_on with
  | _ n ih =>
    intro f ds hf hlt
    obtain ⟨g, rfl⟩ : ∃ g, f = g + 1 := ⟨f - 1, by omega⟩
    by_cases h10 : n < 10
    · have hdiv : n / 10 = 0 := Nat.div_eq_of_lt h10
      rw [toDigitsCore_succ, if_pos hdiv, Nat.toDigits, toDigitsCore_succ, if_pos hdiv]
      rfl
    · have hdiv0 : n / 10 ≠ 0 := by
        have : 0 < n / 10 := Nat.div_pos (by omega) (by norm_num)
        omega
      have hlt' : n / 10 < n := Nat.div_lt_self (by omega) (by norm_num)
      have hg0 : 0 < g := by
        rcases Nat.eq_zero_or_pos g with rfl | h
        · simp at hlt; omega
        · exact h
      have hdivlt : n / 10 < 10 ^ g := by
        rw [Nat.div_lt_iff_lt_mul (by norm_num : (0 : Nat) < 10)]
        calc n < 10 ^ (g + 1) := hlt
          _ = 10 ^ g * 10 := pow_succ 10 g
      have hdivlt' : n / 10 < 10 ^ n :=
        lt_trans hlt' (Nat.lt_pow_self (by norm_num) n)
      have hsplit : Nat.toDigits 10 n
          = Nat.toDigits 10 (n / 10) ++ [Nat.digitChar (n % 10)] := by
        rw [Nat.toDigits, toDigitsCore_succ, if_neg hdiv0,
          ih (n / 10) hlt' n [Nat.digitChar (n % 10)] (by omega) hdivlt']
      rw [toDigitsCore_succ, if_neg hdiv0,
        ih (n / 10) hlt' g (Nat.digitChar (n % 10) :: ds) hg0 hdivlt,
        hsplit, List.append_assoc]
      rfl

/-- Splitting off the least significant digit of a multi-digit number. -/
theorem toDigits_split (n : Nat) (h10 : 10 ≤ n) :
    Nat.toDigits 10 n = Nat.toDigits 10 (n / 10) ++ [Nat.digitChar (n % 10)] := by
  have hdiv0 : n / 10 ≠ 0 := by
    have : 0 < n / 10 := Nat.div_pos (by omega) (by norm_num)
    omega
  have hlt' : n / 10 < n := Nat.div_lt_self (by omega) (by norm_num)
  have hdivlt' : n / 10 < 10 ^ n :=
    lt_trans hlt' (Nat.lt_pow_self (by norm_num) n)
  rw [Nat.toDigits, toDigitsCore_succ, if_neg hdiv0,
    toDigitsCore_eq_append (n / 10) n [Nat.digitChar (n % 10)] (by omega) hdivlt']

/-- Decimal digit characters decode to their digit. -/
theorem digitVal_digitChar (d : Nat) (h : d < 10) :
    digitVal (Nat.digitChar d) = d := by
  interval_cases d <;> decide

/-- Decoding the printed digits of `n` recovers `n`. -/
theorem digitsVal_toDigits : ∀ n : Nat, digitsVal (Nat.toDigits 10 n) = n := by
  intro n
  induction n using Nat.strong_induction_on with
  | _ n ih =>
    by_cases h10 : n < 10
    · have hdiv : n / 10 = 0 := Nat.div_eq_of_lt h10
      rw [Nat.toDigits, toDigitsCore_succ, if_pos hdiv]
      have hm : n % 10 = n := Nat.mod_eq_of_lt h10
      simp [digitsVal, hm, digitVal_digitChar n h10]
    · have hlt' : n / 10 < n := Nat.div_lt_self (by omega) (by norm_num)
      rw [toDigits_split n (by omega)]
      simp only [digitsVal, List.foldl_append, List.foldl_cons, List.foldl_nil]
      have hrec : digitsVal (Nat.toDigits 10 (n / 10)) = n / 10 := ih (n / 10) hlt'
      simp only [digitsVal] at hrec
      rw [hrec, digitVal_digitChar (n % 10) (Nat.mod_lt n (by norm_num))]
      omega

/-- Strings with equal character data are equal. -/
theorem string_data_inj (s t : String) (h : s.data = t.data) : s = t := by
  cases s; cases t; simp_all

/-- The decimal rendering of naturals is injective. -/
theorem Nat_repr_inj (a b : Nat) (h : Nat.repr a = Nat.repr b) : a = b := by
  have hd : Nat.toDigits 10 a = Nat.toDigits 10 b := by
    have hdat := congrArg String.data h
    simpa [Nat.repr, List.asString] using hdat
  have := congrArg digitsVal hd
  simpa [digitsVal_toDigits] using this

/-- Distinct suffix indexes produce distinct candidate names. -/
theorem suffixName_inj (name : String) (i j : Nat)
    (h : suffixName name i = suffixName name j) : i = j := by
  apply Nat_repr_inj
  apply string_data_inj
  have hd := congrArg String.data h
  simp only [suffixName, String.data_append] at hd
  exact List.append_cancel_left (List.append_cancel_right hd)

/-- Pigeonhole for the rename loop: among the candidates
`name (1) … name (length+1)` at least one is not the name of any list,
so the `while` loop of `create_list` terminates within the fuel used by
`findFreeName`. -/
theorem exists_free_suffixName (m : TodoManager) (name guild_id : String) :
    ∃ i, 1 ≤ i ∧ i ≤ m.todo_lists.length + 1 ∧
      (m.list_exists (suffixName name i) guild_id).1 = false := by
  by_contra hc
  push_neg at hc
  have hused : ∀ i, 1 ≤ i → i ≤ m.todo_lists.length + 1 →
      suffixName name i ∈ m.todo_lists.map (fun p => p.2.name) := by
    intro i h1 h2
    have hb : (m.list_exists (suffixName name i) guild_id).1 = true :=
      Bool.ne_false_iff.mp (hc i h1 h2)
    simp only [TodoManager.list_exists, TodoManager.get_list_by_name] at hb
    rw [Option.isSome_iff_exists] at hb
    obtain ⟨L, hL⟩ := hb
    have hpred := List.find?_some hL
    simp only [Bool.and_eq_true, beq_iff_eq] at hpred
    have hmem := List.mem_of_find?_eq_some hL
    obtain ⟨p, hp, hpL⟩ := List.mem_map.mp hmem
    rw [← hpred.1, ← hpL]
    exact List.mem_map_of_mem (fun q => q.2.name) hp
  have hinj : Function.Injective (fun k : Nat => suffixName name (k + 1)) := by
    intro a b hab
    have := suffixName_inj name (a + 1) (b + 1) hab
    omega
  have hcard :
      ((Finset.range (m.todo_lists.length + 1)).image
        (fun k => suffixName name (k + 1))).card = m.todo_lists.length + 1 := by
    rw [Finset.card_image_of_injective _ hinj, Finset.card_range]
  have hsub :
      (Finset.range (m.todo_lists.length + 1)).image (fun k => suffixName name (k + 1)) ⊆
        (m.todo_lists.map (fun p => p.2.name)).toFinset := by
    intro x hx
    simp only [Finset.mem_image, Finset.mem_range] at hx
    obtain ⟨k, hk, rfl⟩ := hx
    rw [List.mem_toFinset]
    exact hused (k + 1) (by omega) (by omega)
  have hle := Finset.card_le_card hsub
  have hlen : (m.todo_lists.map (fun p => p.2.name)).toFinset.card
      ≤ m.todo_lists.length := by
    calc (m.todo_lists.map (fun p => p.2.name)).toFinset.card
        ≤ (m.todo_lists.map (fun p => p.2.name)).length := (m.todo_lists.map _).toFinset_card_le
      _ = m.todo_lists.length := List.length_map _ _
  omega

/-- The rename loop returns the candidate with the least free index at
or after the starting index, provided a free index exists within the
fuel. -/
theorem findFreeNameAux_spec (m : TodoManager) (name guild_id : String) :
    ∀ (fuel i : Nat),
      (∃ j, i ≤ j ∧ j < i + fuel ∧
        (m.list_exists (suffixName name j) guild_id).1 = false) →
      ∃ N, i ≤ N ∧
        findFreeNameAux m name guild_id fuel i = suffixName name N ∧
        (m.list_exists (suffixName name N) guild_id).1 = false ∧
        ∀ k, i ≤ k → k < N → (m.list_exists (suffixName name k) guild_id).1 = true := by
  intro fuel
  induction fuel with
  | zero =>
    intro i ⟨j, hj1, hj2, _⟩
    omega
  | succ fuel ih =>
    intro i ⟨j, hj1, hj2, hjf⟩
    by_cases hi : (m.list_exists (suffixName name i) guild_id).1 = true
    · have hne : j ≠ i := by
        intro h
        rw [h] at hjf
        rw [hjf] at hi
        exact Bool.false_ne_true hi
      obtain ⟨N, hN1, hN2, hN3, hN4⟩ := ih (i + 1) ⟨j, by omega, by omega, hjf⟩
      refine ⟨N, by omega, ?_, hN3, ?_⟩
      · simpa [findFreeNameAux, hi] using hN2
      · intro k hk1 hk2
        rcases Nat.eq_or_lt_of_le hk1 with heq | hk
        · rw [← heq]; exact hi
        · exact hN4 k hk hk2
    · have hif : (m.list_exists (suffixName name i) guild_id).1 = false :=
        Bool.not_eq_true _ ▸ Bool.eq_false_iff.mpr hi
      refine ⟨i, le_rfl, ?_, hif, fun k hk1 hk2 => absurd (lt_of_le_of_lt hk1 hk2) (lt_irrefl i)⟩
      simp [findFreeNameAux, hi]

/-- C4: when `(name, guild_id)` already exists, `create_list` stores the
new list under the fresh id and renames it to `name (N)` where `N ≥ 1`
is the lowest index whose candidate name is unused in that guild; every
smaller candidate is in use.  (Concretely: a second `Shopping` becomes
`Shopping (1)` and a third `Shopping (2)`, with distinct ids — see the
witness.) -/
theorem C4_create_list_lowest_suffix (m : TodoManager)
    (name created_by guild_id nowS fresh : String) (nowT : Int)
    (hex : (m.list_exists name guild_id).1 = true) :
    (m.create_list name created_by guild_id nowS fresh nowT).1.list_id = fresh ∧
    ∃ N, 1 ≤ N ∧
      (m.create_list name created_by guild_id nowS fresh nowT).1.name = suffixName name N ∧
      (m.list_exists (suffixName name N) guild_id).1 = false ∧
      ∀ k, 1 ≤ k → k < N → (m.list_exists (suffixName name k) guild_id).1 = true := by
  constructor
  · simp [TodoManager.create_list, TodoList.init, orFresh]
  · obtain ⟨j, hj1, hj2, hjf⟩ := exists_free_suffixName m name guild_id
    obtain ⟨N, hN1, hN2, hN3, hN4⟩ :=
      findFreeNameAux_spec m name guild_id (m.todo_lists.length + 1) 1
        ⟨j, hj1, by omega, hjf⟩
    refine ⟨N, hN1, ?_, hN3, hN4⟩
    simpa [TodoManager.create_list, TodoList.init, findFreeName, hex] using hN2

/-- The empty manager used by the create-list scenario. -/
def mgrShop0 : TodoManager := TodoManager.start [] false

/-- First `create_list "Shopping"` call of the scenario. -/
def shopping1 : TodoList × TodoManager :=
  mgrShop0.create_list "Shopping" "u1" "g1" "ts1" "l1" 10

/-- Second `create_list "Shopping"` call of the scenario. -/
def shopping2 : TodoList × TodoManager :=
  shopping1.2.create_list "Shopping" "u2" "g1" "ts2" "l2" 20

/-- Third `create_list "Shopping"` call of the scenario. -/
def shopping3 : TodoList × TodoManager :=
  shopping2.2.create_list "Shopping" "u3" "g1" "ts3" "l3" 30

/-- Witness for C4: applying the theorem to the second call, and the
concrete scenario of the claim: three `Shopping` creations in one guild
yield names `Shopping`, `Shopping (1)`, `Shopping (2)` with pairwise
distinct ids. -/
theorem C4_witness :
    (shopping2.1.list_id = "l2" ∧
      ∃ N, 1 ≤ N ∧ shopping2.1.name = suffixName "Shopping" N ∧
        (shopping1.2.list_exists (suffixName "Shopping" N) "g1").1 = false ∧
        ∀ k, 1 ≤ k → k < N →
          (shopping1.2.list_exists (suffixName "Shopping" k) "g1").1 = true) ∧
    shopping1.1.name = "Shopping" ∧
    shopping2.1.name = "Shopping (1)" ∧
    shopping3.1.name = "Shopping (2)" ∧
    shopping1.1.list_id ≠ shopping2.1.list_id ∧
    shopping2.1.list_id ≠ shopping3.1.list_id ∧
    shopping1.1.list_id ≠ shopping3.1.list_id :=
  ⟨C4_create_list_lowest_suffix shopping1.2 "Shopping" "u2" "g1" "ts2" "l2" 20 (by decide),
   by decide, by decide, by decide, by decide, by decide, by decide⟩
